import Mathlib

/-!
Shallow embedding of the pinkycoin blockchain (blockchain.js: Transaction,
Block, Blockchain) for checking the specification claims.

Modelling conventions, matching the JavaScript source line by line:
* A JS string-or-null field is `Option String` (`none` = `null`).
* JS numbers occurring here (amounts, timestamps, nonce) are `Int`.
* A JS method that can `throw` is a Lean function into `Except String _`;
  the error string is the thrown message.
* `Date.now()` results are passed in as explicit parameters.
* The SHA-256 digest (node-forge) and the secp256k1 signature scheme
  (elliptic) are external libraries, not part of this repository; they are
  abstracted as a `Crypto` structure of deterministic functions. A signing
  key is represented by an opaque `String` handle.
* The unbounded `while` loop of `mineBlock` is modelled with explicit fuel;
  `none` means the fuel ran out before the proof-of-work target was met.
-/

namespace Pinkycoin

/-- JS string coercion of a string-or-null value, as it happens inside the
`+` concatenations of the source (`null` coerces to the text `"null"`). -/
def jsStrOpt : Option String → String
  | none => "null"
  | some s => s

/-- JS truthiness test (negated) for a string-or-null value: `!x` is `true`
exactly for `null` and for the empty string. -/
def jsFalsyStr : Option String → Bool
  | none => true
  | some s => s.isEmpty

/-- Whether an `Except` result is an error (a thrown JS exception). -/
def exceptIsError : Except String α → Bool
  | .error _ => true
  | .ok _ => false

/-- Abstraction of the external cryptography used by blockchain.js:
`sha256hex` is forge's hex SHA-256 digest; `pubOf`, `sign`, `verify` are the
elliptic secp256k1 operations (`getPublic("hex")`, `sign` + `toDER("hex")`,
`verify`). All are plain functions, hence deterministic. -/
structure Crypto where
  sha256hex : String → String
  pubOf : String → String
  sign : String → String → String
  verify : String → String → String → Bool

/-- Transaction object: fields `fromAddress`, `toAddress`, `amount`,
`timestamp` set by the constructor, `signature` initially absent
(JS `undefined`) and set only by `signTransaction`. -/
structure Transaction where
  fromAddress : Option String
  toAddress : Option String
  amount : Int
  timestamp : Int
  signature : Option String
deriving DecidableEq

/-- The `Transaction` constructor: stores the three arguments and
`Date.now()` (passed here as `now`); `signature` is left unset. -/
def Transaction.new (fromAddress toAddress : Option String) (amount now : Int) : Transaction :=
  { fromAddress := fromAddress, toAddress := toAddress, amount := amount,
    timestamp := now, signature := none }

/-- `Transaction.calculateHash()`: SHA-256 of
`this.fromAddress + this.toAddress + this.amount` (JS string concatenation;
the timestamp and the signature are not part of the digest input). -/
def Transaction.calculateHash (C : Crypto) (tx : Transaction) : String :=
  C.sha256hex (jsStrOpt tx.fromAddress ++ jsStrOpt tx.toAddress ++ toString tx.amount)

/-- `Transaction.signTransaction(signingKey)`: throws when
`signingKey.getPublic("hex") !== this.fromAddress`; otherwise stores
`signingKey.sign(this.calculateHash()).toDER("hex")` in `signature`. -/
def Transaction.signTransaction (C : Crypto) (tx : Transaction) (key : String) :
    Except String Transaction :=
  if tx.fromAddress ≠ some (C.pubOf key) then
    .error "Transaction cannot be signed because you have no privilege for this Transaction!"
  else
    .ok { tx with signature := some (C.sign key (Transaction.calculateHash C tx)) }

/-- `Transaction.isValid()`: `true` when `fromAddress === null`; throws when
the signature is absent or empty; otherwise verifies the signature against
the `fromAddress` used as public key and the transaction digest. -/
def Transaction.isValid (C : Crypto) (tx : Transaction) : Except String Bool :=
  match tx.fromAddress with
  | none => .ok true
  | some pub =>
    match tx.signature with
    | none => .error "Missing signature of Transaction!"
    | some sig =>
      if sig = "" then .error "Missing signature of Transaction!"
      else .ok (C.verify pub (Transaction.calculateHash C tx) sig)

/-- Block object: fields in the insertion order of the constructor
(`previousHash`, `timestamp`, `transactions`, `hash`, `nonce`). -/
structure Block where
  previousHash : String
  timestamp : Int
  transactions : List Transaction
  hash : String
  nonce : Int
deriving DecidableEq

/-- The exact string that `Block.calculateHash` digests. The source
concatenates `this.index + this.previousHash + this.timestamp +
JSON.stringify(this.data) + this.nonce`; the `Block` class never assigns
`index` or `data`, so both read as JS `undefined`, which coerces to the text
`"undefined"` in the concatenation (`JSON.stringify(undefined)` is the value
`undefined`). The transaction list is therefore absent from the digest
input. `nonceStr` is the coercion of `this.nonce` at the moment of the call:
inside the constructor the field is still unassigned (`"undefined"`),
afterwards it is the decimal text of the number. -/
def blockHashInput (previousHash : String) (timestamp : Int) (nonceStr : String) : String :=
  "undefined" ++ previousHash ++ toString timestamp ++ "undefined" ++ nonceStr

/-- `Block.calculateHash()` after construction, when `nonce` is a number. -/
def Block.calculateHash (C : Crypto) (b : Block) : String :=
  C.sha256hex (blockHashInput b.previousHash b.timestamp (toString b.nonce))

/-- The `Block` constructor: stores the arguments, computes
`this.hash = this.calculateHash()` while `this.nonce` is still unassigned
(the assignment `this.nonce = 0` comes only on the next line), then sets
`nonce` to `0`. -/
def Block.new (C : Crypto) (timestamp : Int) (transactions : List Transaction)
    (previousHash : String) : Block :=
  { previousHash := previousHash, timestamp := timestamp, transactions := transactions,
    hash := C.sha256hex (blockHashInput previousHash timestamp "undefined"),
    nonce := 0 }

/-- Model of JS `s.substring(0, n)`. -/
def strTake (s : String) (n : Nat) : String :=
  String.mk (s.data.take n)

/-- `Array(difficulty + 1).join("0")`: a string of `difficulty` zero digits. -/
def zeroTarget (difficulty : Nat) : String :=
  String.mk (List.replicate difficulty '0')

/-- One iteration of the mining loop: `this.nonce++` followed by
`this.hash = this.calculateHash()` (the hash is computed with the already
incremented nonce). -/
def mineStep (C : Crypto) (b : Block) : Block :=
  let b2 : Block := { b with nonce := b.nonce + 1 }
  { b2 with hash := Block.calculateHash C b2 }

/-- `Block.mineBlock(difficulty)`: loop while
`this.hash.substring(0, difficulty) !== Array(difficulty + 1).join("0")`.
The JS loop is unbounded; `fuel` bounds the number of iterations modelled,
and `none` means the target was not reached within `fuel` iterations. -/
def Block.mineBlock (C : Crypto) (difficulty : Nat) : Nat → Block → Option Block
  | 0, b =>
    if strTake b.hash difficulty = zeroTarget difficulty then some b else none
  | fuel + 1, b =>
    if strTake b.hash difficulty = zeroTarget difficulty then some b
    else Block.mineBlock C difficulty fuel (mineStep C b)

/-- Loop body of `Block.hasValidTransaction()` over the transaction list:
returns `false` at the first transaction whose `isValid()` is `false`
(propagating any exception `isValid()` throws), else `true`. -/
def validateTxs (C : Crypto) : List Transaction → Except String Bool
  | [] => .ok true
  | tx :: rest =>
    match Transaction.isValid C tx with
    | .error e => .error e
    | .ok v => if v = false then .ok false else validateTxs C rest

/-- `Block.hasValidTransaction()` (note the singular name in the source). -/
def Block.hasValidTransaction (C : Crypto) (b : Block) : Except String Bool :=
  validateTxs C b.transactions

/-- A JSON string literal. The addresses, hashes and signatures occurring in
this system are hex/alphanumeric text, so no escaping is needed. -/
def jsonString (s : String) : String :=
  "\"" ++ s ++ "\""

/-- JSON rendering of a string-or-null value. -/
def jsonOptString : Option String → String
  | none => "null"
  | some s => jsonString s

/-- `JSON.stringify` of a `Transaction`, fields in insertion order; an unset
`signature` field (JS `undefined`) is omitted entirely. -/
def jsonTransaction (tx : Transaction) : String :=
  "\x7b\"fromAddress\":" ++ jsonOptString tx.fromAddress
    ++ ",\"toAddress\":" ++ jsonOptString tx.toAddress
    ++ ",\"amount\":" ++ toString tx.amount
    ++ ",\"timestamp\":" ++ toString tx.timestamp
    ++ (match tx.signature with
        | none => ""
        | some s => ",\"signature\":" ++ jsonString s)
    ++ "\x7d"

/-- JSON rendering of an array from already rendered elements. -/
def jsonArr (elems : List String) : String :=
  "[" ++ String.intercalate "," elems ++ "]"

/-- `JSON.stringify` of a `Block`, fields in insertion order. -/
def jsonBlock (b : Block) : String :=
  "\x7b\"previousHash\":" ++ jsonString b.previousHash
    ++ ",\"timestamp\":" ++ toString b.timestamp
    ++ ",\"transactions\":" ++ jsonArr (b.transactions.map jsonTransaction)
    ++ ",\"hash\":" ++ jsonString b.hash
    ++ ",\"nonce\":" ++ toString b.nonce
    ++ "\x7d"

/-- Blockchain object. -/
structure Blockchain where
  chain : List Block
  difficulty : Nat
  pendingTransactions : List Transaction
  miningReward : Int
deriving DecidableEq

/-- `createGenesisBlock()`: `new Block(Date.parse("2021-01-01"), [], "0")`;
`Date.parse("2021-01-01")` is the fixed epoch value 1609459200000. -/
def createGenesisBlock (C : Crypto) : Block :=
  Block.new C 1609459200000 [] "0"

/-- The `Blockchain` constructor: genesis chain, difficulty 2, empty pending
queue, mining reward 100. -/
def Blockchain.new (C : Crypto) : Blockchain :=
  { chain := [createGenesisBlock C], difficulty := 2,
    pendingTransactions := [], miningReward := 100 }

/-- `getLatestBlock()`: `this.chain[this.chain.length - 1]`; the chain is
never empty in any state reachable from the constructor, so the `none` case
never arises there. -/
def Blockchain.getLatestBlock (bc : Blockchain) : Option Block :=
  bc.chain.getLast?

/-- `minePendingTransactions(miningRewardAddress)`: pushes the reward
transaction `new Transaction(null, miningRewardAddress, this.miningReward)`
onto the pending queue, builds a block from the whole queue and the latest
block hash, mines it at `this.difficulty`, appends it to the chain and
clears the queue. `txNow` and `blockNow` are the two `Date.now()` calls;
`fuel` bounds the mining loop (`none` = the unbounded JS loop has not yet
finished within `fuel` iterations, or the chain was empty, which is
unreachable from the constructor). -/
def Blockchain.minePendingTransactions (C : Crypto) (bc : Blockchain)
    (miningRewardAddress : String) (txNow blockNow : Int) (fuel : Nat) :
    Option Blockchain :=
  match bc.chain.getLast? with
  | none => none
  | some latest =>
    let rewardTx := Transaction.new none (some miningRewardAddress) bc.miningReward txNow
    let pending := bc.pendingTransactions ++ [rewardTx]
    match Block.mineBlock C bc.difficulty fuel (Block.new C blockNow pending latest.hash) with
    | none => none
    | some mined =>
      some { bc with chain := bc.chain ++ [mined], pendingTransactions := [] }

/-- `getBalanceOfAddress(address)` inner step: subtract the amount when the
transaction's `fromAddress === address`, add it when `toAddress === address`. -/
def txBalanceStep (address : Option String) (bal : Int) (tx : Transaction) : Int :=
  let bal2 := if tx.fromAddress = address then bal - tx.amount else bal
  if tx.toAddress = address then bal2 + tx.amount else bal2

/-- `getBalanceOfAddress(address)`: fold over every transaction of every
block of the chain, starting from 0. Pending transactions are not visited. -/
def Blockchain.getBalanceOfAddress (bc : Blockchain) (address : Option String) : Int :=
  bc.chain.foldl (fun bal b => b.transactions.foldl (txBalanceStep address) bal) 0

/-- `addTransaction(transaction)`: throws on a falsy `fromAddress` or
`toAddress`, on `isValid()` false (or propagates the exception `isValid()`
throws), on `amount <= 0`, and on a confirmed-chain balance of the sender
below `amount`; otherwise pushes the transaction onto the pending queue. -/
def Blockchain.addTransaction (C : Crypto) (bc : Blockchain) (tx : Transaction) :
    Except String Blockchain :=
  if jsFalsyStr tx.fromAddress || jsFalsyStr tx.toAddress then
    .error "Transaction must include from and to address"
  else
    match Transaction.isValid C tx with
    | .error e => .error e
    | .ok valid =>
      if valid = false then .error "Cannot add invalid transaction to chain"
      else if tx.amount ≤ 0 then .error "Transaction amount should be higher than 0"
      else if bc.getBalanceOfAddress tx.fromAddress < tx.amount then
        .error "Not enough balance"
      else .ok { bc with pendingTransactions := bc.pendingTransactions ++ [tx] }

/-- `isChainValid()`: compares `JSON.stringify` of a freshly constructed
genesis block with `JSON.stringify(this.chain[0])` and returns `false` on
mismatch. The subsequent loop body begins with
`currentBlock.hasValidTransactions()` — a method that does not exist on
`Block` (the defined method is `hasValidTransaction`), so the first loop
iteration throws a TypeError; hence the loop body is an immediate error
whenever the chain has a second block. -/
def Blockchain.isChainValid (C : Crypto) (bc : Blockchain) : Except String Bool :=
  match bc.chain with
  | [] => .ok false
  | b0 :: rest =>
    if jsonBlock (createGenesisBlock C) = jsonBlock b0 then
      match rest with
      | [] => .ok true
      | _ :: _ => .error "currentBlock.hasValidTransactions is not a function"
    else .ok false

/-- Loop of `isChainValid()` over `chain[1], chain[2], ...` as it would run
with the single method-name typo repaired (calling `hasValidTransaction`):
return `false` when a block has an invalid transaction (propagating thrown
exceptions) or when its stored hash differs from a recomputed hash; note the
source loop contains no comparison of `previousHash` with the prior block's
hash. -/
def checkBlocksFromOne (C : Crypto) : List Block → Except String Bool
  | [] => .ok true
  | b :: rest =>
    match Block.hasValidTransaction C b with
    | .error e => .error e
    | .ok v =>
      if v = false then .ok false
      else if b.hash ≠ Block.calculateHash C b then .ok false
      else checkBlocksFromOne C rest

/-- `isChainValid()` as it would behave with the method-name typo repaired
(`hasValidTransactions` → `hasValidTransaction`) and nothing else changed;
used to separate that typo from the other divergences of the source. -/
def Blockchain.isChainValidNameFixed (C : Crypto) (bc : Blockchain) : Except String Bool :=
  match bc.chain with
  | [] => .ok false
  | b0 :: rest =>
    if jsonBlock (createGenesisBlock C) = jsonBlock b0 then checkBlocksFromOne C rest
    else .ok false

/-- A concrete instantiation of the abstract cryptography, used to evaluate
the model on explicit inputs: a constant digest (every digest function is a
function, so any function is an admissible instance), a tagged public key,
and a verifier that accepts exactly the strings this `sign` produces. -/
def testCrypto : Crypto :=
  { sha256hex := fun _ => "00"
    pubOf := fun k => "P" ++ k
    sign := fun k h => "S" ++ k ++ h
    verify := fun pub h sig => sig == "S" ++ pub.drop 1 ++ h }

/-- The chain state after `new Blockchain()` followed by one
`minePendingTransactions("miner")` under `testCrypto`, with the two
`Date.now()` readings 50 and 60: genesis plus one mined block holding the
single reward transaction. -/
def minedOnceBc : Blockchain :=
  { chain :=
      [createGenesisBlock testCrypto,
       { previousHash := "00", timestamp := 60,
         transactions := [Transaction.new none (some "miner") 100 50],
         hash := "00", nonce := 0 }],
    difficulty := 2, pendingTransactions := [], miningReward := 100 }

end Pinkycoin

namespace Pinkycoin

/-- C6: `Transaction.isValid()` returns `true` unconditionally when the
sender is the system-mint sentinel (`null`); otherwise it raises the
missing-signature error when no (or an empty) signature is present, and
otherwise returns exactly the boolean result of verifying the stored
signature against the sender used as public key and `calculateHash()`. -/
theorem C6_isValid_spec (C : Crypto) (tx : Transaction) :
    (tx.fromAddress = none → Transaction.isValid C tx = .ok true)
    ∧ (∀ pub, tx.fromAddress = some pub →
        (tx.signature = none ∨ tx.signature = some "") →
        Transaction.isValid C tx = .error "Missing signature of Transaction!")
    ∧ (∀ pub sig, tx.fromAddress = some pub → tx.signature = some sig → sig ≠ "" →
        Transaction.isValid C tx =
          .ok (C.verify pub (Transaction.calculateHash C tx) sig)) := by
  refine ⟨fun h => by simp [Transaction.isValid, h], ?_, ?_⟩
  · intro pub hf hs
    rcases hs with hs | hs <;> simp [Transaction.isValid, hf, hs]
  · intro pub sig hf hs hne
    simp [Transaction.isValid, hf, hs, hne]

/-- Witness for C6 at concrete transactions: a reward transaction is valid,
an unsigned real transaction raises the missing-signature error, and a
signed one returns the verifier's verdict. -/
theorem C6_isValid_spec_witness :
    Transaction.isValid testCrypto (Transaction.new none (some "b") 5 0) = .ok true
    ∧ Transaction.isValid testCrypto (Transaction.new (some "a") (some "b") 5 0) =
        .error "Missing signature of Transaction!"
    ∧ Transaction.isValid testCrypto
        { Transaction.new (some "a") (some "b") 5 0 with signature := some "sig" } =
        .ok (testCrypto.verify "a"
          (Transaction.calculateHash testCrypto (Transaction.new (some "a") (some "b") 5 0))
          "sig") := by
  refine ⟨(C6_isValid_spec testCrypto (Transaction.new none (some "b") 5 0)).1 rfl, ?_, ?_⟩
  · exact (C6_isValid_spec testCrypto
      (Transaction.new (some "a") (some "b") 5 0)).2.1 "a" rfl (Or.inl rfl)
  · exact (C6_isValid_spec testCrypto
      { Transaction.new (some "a") (some "b") 5 0 with signature := some "sig" }).2.2
      "a" "sig" rfl rfl (by decide)

/-- C7: `signTransaction(privateKey)` raises the authorization error exactly
when the public identifier derived from the signing key differs from the
transaction's `fromAddress`; when they match, it stores a signature over the
transaction digest in the `signature` field and changes nothing else. -/
theorem C7_signTransaction_spec (C : Crypto) (tx : Transaction) (key : String) :
    (exceptIsError (Transaction.signTransaction C tx key) = true ↔
      tx.fromAddress ≠ some (C.pubOf key))
    ∧ (tx.fromAddress = some (C.pubOf key) →
        Transaction.signTransaction C tx key =
          .ok { tx with signature := some (C.sign key (Transaction.calculateHash C tx)) }) := by
  constructor
  · constructor
    · intro h hne
      simp [Transaction.signTransaction, hne] at h
      simp [exceptIsError] at h
    · intro hne
      simp [Transaction.signTransaction, hne, exceptIsError]
  · intro h
    simp [Transaction.signTransaction, h]

/-- Witness for C7 at a concrete transaction and key: signing with the
matching key succeeds and stores exactly the signature over the digest. -/
theorem C7_signTransaction_spec_witness :
    Transaction.signTransaction testCrypto
      (Transaction.new (some "Pk1") (some "b") 5 0) "k1" =
      .ok { Transaction.new (some "Pk1") (some "b") 5 0 with
            signature := some (testCrypto.sign "k1"
              (Transaction.calculateHash testCrypto
                (Transaction.new (some "Pk1") (some "b") 5 0))) } :=
  (C7_signTransaction_spec testCrypto (Transaction.new (some "Pk1") (some "b") 5 0) "k1").2 rfl

/-- C9: `Transaction.calculateHash()` depends only on the sender, the
recipient and the amount: two transactions agreeing on these three fields
(whatever their timestamps and signatures) have the same digest. -/
theorem C9_txHash_fields (C : Crypto) (t1 t2 : Transaction)
    (hf : t1.fromAddress = t2.fromAddress) (ht : t1.toAddress = t2.toAddress)
    (ha : t1.amount = t2.amount) :
    Transaction.calculateHash C t1 = Transaction.calculateHash C t2 := by
  simp [Transaction.calculateHash, hf, ht, ha]

/-- Witness for C9: two concrete transactions differing in timestamp and
signature but agreeing on sender, recipient and amount hash equally. -/
theorem C9_txHash_fields_witness :
    Transaction.calculateHash testCrypto (Transaction.new (some "a") (some "b") 7 111) =
    Transaction.calculateHash testCrypto
      { Transaction.new (some "a") (some "b") 7 222 with signature := some "sig" } :=
  C9_txHash_fields testCrypto _ _ rfl rfl rfl

/-- C10: a transaction whose `fromAddress` is the `null` sentinel or the
empty string is rejected by `addTransaction` with the missing-address error
(so the pending queue is unchanged and system-minted reward transactions
cannot enter through the public `addTransaction`). -/
theorem C10_addTransaction_rejects_sentinel (C : Crypto) (bc : Blockchain)
    (tx : Transaction) (h : tx.fromAddress = none ∨ tx.fromAddress = some "") :
    Blockchain.addTransaction C bc tx =
      .error "Transaction must include from and to address" := by
  have hf : jsFalsyStr tx.fromAddress = true := by
    rcases h with h | h
    · simp [jsFalsyStr, h]
    · rw [h]; rfl
  simp [Blockchain.addTransaction, hf]

/-- Witness for C10: the exact shape of a reward transaction built by
`minePendingTransactions` (sender `null`) is rejected by `addTransaction`
on a fresh chain. -/
theorem C10_addTransaction_rejects_sentinel_witness :
    Blockchain.addTransaction testCrypto (Blockchain.new testCrypto)
      (Transaction.new none (some "miner") 100 50) =
      .error "Transaction must include from and to address" :=
  C10_addTransaction_rejects_sentinel testCrypto (Blockchain.new testCrypto)
    (Transaction.new none (some "miner") 100 50) (Or.inl rfl)

/-- Whenever the mining loop returns, the returned block's hash satisfies
the proof-of-work target of the given difficulty. -/
theorem mineBlock_take (C : Crypto) (d : Nat) :
    ∀ fuel b b2, Block.mineBlock C d fuel b = some b2 →
      strTake b2.hash d = zeroTarget d := by
  intro fuel
  induction fuel with
  | zero =>
    intro b b2 h
    unfold Block.mineBlock at h
    split at h
    · cases h
      assumption
    · cases h
  | succ f ih =>
    intro b b2 h
    unfold Block.mineBlock at h
    split at h
    · cases h
      assumption
    · exact ih _ _ h

/-- The mining loop only touches `nonce` and `hash`: transactions, previous
hash and timestamp of the returned block are those of the input block. -/
theorem mineBlock_preserves (C : Crypto) (d : Nat) :
    ∀ fuel b b2, Block.mineBlock C d fuel b = some b2 →
      b2.transactions = b.transactions ∧ b2.previousHash = b.previousHash
        ∧ b2.timestamp = b.timestamp := by
  intro fuel
  induction fuel with
  | zero =>
    intro b b2 h
    unfold Block.mineBlock at h
    split at h
    · cases h
      exact ⟨rfl, rfl, rfl⟩
    · cases h
  | succ f ih =>
    intro b b2 h
    unfold Block.mineBlock at h
    split at h
    · cases h
      exact ⟨rfl, rfl, rfl⟩
    · have h2 := ih _ _ h
      simpa [mineStep] using h2

/-- With difficulty 0 the loop guard holds at entry: the block is returned
unchanged (in particular the nonce is not altered), whatever the fuel. -/
theorem mineBlock_zero_difficulty (C : Crypto) (fuel : Nat) (b : Block) :
    Block.mineBlock C 0 fuel b = some b := by
  have hguard : strTake b.hash 0 = zeroTarget 0 := by
    simp [strTake, zeroTarget]
  cases fuel <;> simp [Block.mineBlock, hguard]

/-- C8: whenever `mineBlock(difficulty)` returns, the final hash's leading
`difficulty` characters are all the zero digit; `mineBlock(0)` returns
immediately with the block unchanged (nonce untouched); and at difficulty 2
the final hash starts with "00". -/
theorem C8_mineBlock_postcondition (C : Crypto) (d fuel : Nat) (b b2 : Block)
    (h : Block.mineBlock C d fuel b = some b2) :
    strTake b2.hash d = zeroTarget d
    ∧ Block.mineBlock C 0 fuel b = some b
    ∧ (d = 2 → strTake b2.hash 2 = "00") := by
  refine ⟨mineBlock_take C d fuel b b2 h, mineBlock_zero_difficulty C fuel b, ?_⟩
  intro hd
  have h2 := mineBlock_take C d fuel b b2 h
  rw [hd] at h2
  exact h2

/-- Witness for C8: mining the concrete block of `minedOnceBc` at
difficulty 2 returns at once, and its hash starts with "00". -/
theorem C8_mineBlock_postcondition_witness :
    strTake (Block.new testCrypto 60 [Transaction.new none (some "miner") 100 50] "00").hash
        2 = zeroTarget 2
    ∧ strTake (Block.new testCrypto 60 [Transaction.new none (some "miner") 100 50] "00").hash
        2 = "00" := by
  have h := C8_mineBlock_postcondition testCrypto 2 3
    (Block.new testCrypto 60 [Transaction.new none (some "miner") 100 50] "00")
    (Block.new testCrypto 60 [Transaction.new none (some "miner") 100 50] "00") rfl
  exact ⟨h.1, h.2.2 rfl⟩

/-- C4: when `minePendingTransactions(rewardAddress)` returns a new state,
exactly one system-minted reward transaction (sender `null`, recipient the
reward address, amount `miningReward`) was appended to the pending queue;
one block was built from that full queue and the latest block's hash, mined
to the chain's difficulty, and appended to the chain (whose length grows by
exactly one); and the pending queue is left empty. -/
theorem C4_minePendingTransactions_spec (C : Crypto) (bc bc2 : Blockchain)
    (addr : String) (txNow blockNow : Int) (fuel : Nat)
    (h : Blockchain.minePendingTransactions C bc addr txNow blockNow fuel = some bc2) :
    ∃ latest mined,
      bc.chain.getLast? = some latest
      ∧ Block.mineBlock C bc.difficulty fuel
          (Block.new C blockNow
            (bc.pendingTransactions ++ [Transaction.new none (some addr) bc.miningReward txNow])
            latest.hash) = some mined
      ∧ mined.transactions =
          bc.pendingTransactions ++ [Transaction.new none (some addr) bc.miningReward txNow]
      ∧ mined.previousHash = latest.hash
      ∧ strTake mined.hash bc.difficulty = zeroTarget bc.difficulty
      ∧ bc2.chain = bc.chain ++ [mined]
      ∧ bc2.chain.length = bc.chain.length + 1
      ∧ bc2.pendingTransactions = []
      ∧ bc2.difficulty = bc.difficulty
      ∧ bc2.miningReward = bc.miningReward := by
  unfold Blockchain.minePendingTransactions at h
  cases hl : bc.chain.getLast? with
  | none =>
    rw [hl] at h
    cases h
  | some latest =>
    rw [hl] at h
    simp only at h
    cases hm : Block.mineBlock C bc.difficulty fuel
        (Block.new C blockNow
          (bc.pendingTransactions ++ [Transaction.new none (some addr) bc.miningReward txNow])
          latest.hash) with
    | none =>
      rw [hm] at h
      cases h
    | some mined =>
      rw [hm] at h
      simp only [Option.some.injEq] at h
      subst h
      have hp := mineBlock_preserves C bc.difficulty fuel _ _ hm
      refine ⟨latest, mined, rfl, hm, ?_, ?_, mineBlock_take C bc.difficulty fuel _ _ hm,
        rfl, by simp, rfl, rfl, rfl⟩
      · simpa [Block.new] using hp.1
      · simpa [Block.new] using hp.2.1

/-- Witness for C4: on a fresh chain under `testCrypto`, mining to address
"miner" yields the explicit state `minedOnceBc`: two blocks and an empty
pending queue. -/
theorem C4_minePendingTransactions_spec_witness :
    minedOnceBc.chain.length = (Blockchain.new testCrypto).chain.length + 1
    ∧ minedOnceBc.pendingTransactions = [] := by
  obtain ⟨latest, mined, _, _, _, _, _, _, hlen, hpend, _, _⟩ :=
    C4_minePendingTransactions_spec testCrypto (Blockchain.new testCrypto) minedOnceBc
      "miner" 50 60 5 rfl
  exact ⟨hlen, hpend⟩

/-- C5: `addTransaction(tx)` raises an error when the sender or recipient
is absent, when `isValid()` is `false`, when the amount is non-positive, or
when the confirmed-chain balance of the sender (pending transactions are not
consulted) is below the amount; and when it succeeds, the only change is the
transaction appended to the pending queue — the block sequence, difficulty
and reward are untouched (so in every error case the state is unchanged). -/
theorem C5_addTransaction_spec (C : Crypto) (bc : Blockchain) (tx : Transaction) :
    ((jsFalsyStr tx.fromAddress = true ∨ jsFalsyStr tx.toAddress = true) →
      exceptIsError (Blockchain.addTransaction C bc tx) = true)
    ∧ (Transaction.isValid C tx = .ok false →
      exceptIsError (Blockchain.addTransaction C bc tx) = true)
    ∧ (tx.amount ≤ 0 →
      exceptIsError (Blockchain.addTransaction C bc tx) = true)
    ∧ (bc.getBalanceOfAddress tx.fromAddress < tx.amount →
      exceptIsError (Blockchain.addTransaction C bc tx) = true)
    ∧ (∀ bc2, Blockchain.addTransaction C bc tx = .ok bc2 →
      bc2.chain = bc.chain
      ∧ bc2.pendingTransactions = bc.pendingTransactions ++ [tx]
      ∧ bc2.difficulty = bc.difficulty
      ∧ bc2.miningReward = bc.miningReward) := by
  by_cases hf : (jsFalsyStr tx.fromAddress || jsFalsyStr tx.toAddress) = true
  · refine ⟨?_, ?_, ?_, ?_, ?_⟩ <;>
      (intro _; simp [Blockchain.addTransaction, hf, exceptIsError])
  · have h1 : ∀ P : Prop,
        (jsFalsyStr tx.fromAddress = true ∨ jsFalsyStr tx.toAddress = true) → P := by
      intro P hor
      exact absurd (by rcases hor with h | h <;> simp [h]) hf
    cases hv : Transaction.isValid C tx with
    | error e =>
      refine ⟨fun hor => h1 _ hor, ?_, ?_, ?_, ?_⟩ <;>
        (intro _; simp [Blockchain.addTransaction, hf, hv, exceptIsError])
    | ok v =>
      by_cases hvf : v = false
      · subst hvf
        refine ⟨fun hor => h1 _ hor, ?_, ?_, ?_, ?_⟩ <;>
          (intro _; simp [Blockchain.addTransaction, hf, hv, exceptIsError])
      · by_cases ha : tx.amount ≤ 0
        · refine ⟨fun hor => h1 _ hor, ?_, ?_, ?_, ?_⟩
          · intro h2
            simp at h2
            exact absurd h2 hvf
          · intro _
            simp [Blockchain.addTransaction, hf, hv, hvf, ha, exceptIsError]
          · intro _
            simp [Blockchain.addTransaction, hf, hv, hvf, ha, exceptIsError]
          · intro bc2 h2
            rw [Blockchain.addTransaction, if_neg hf, hv] at h2
            simp [hvf, ha] at h2
        · by_cases hb : bc.getBalanceOfAddress tx.fromAddress < tx.amount
          · refine ⟨fun hor => h1 _ hor, ?_, ?_, ?_, ?_⟩
            · intro h2
              simp at h2
              exact absurd h2 hvf
            · intro h2
              exact absurd h2 ha
            · intro _
              simp [Blockchain.addTransaction, hf, hv, hvf, ha, hb, exceptIsError]
            · intro bc2 h2
              rw [Blockchain.addTransaction, if_neg hf, hv] at h2
              simp [hvf, ha, hb] at h2
          · refine ⟨fun hor => h1 _ hor, ?_, ?_, ?_, ?_⟩
            · intro h2
              simp at h2
              exact absurd h2 hvf
            · intro h2
              exact absurd h2 ha
            · intro h2
              exact absurd h2 hb
            · intro bc2 h2
              rw [Blockchain.addTransaction, if_neg hf, hv] at h2
              simp [hvf, ha, hb] at h2
              subst h2
              exact ⟨rfl, rfl, rfl, rfl⟩

/-- Witness for C5 at concrete inputs: a non-positive amount is rejected on
a fresh chain, and on `minedOnceBc` (where "miner" holds 100) a signed
transfer of 40 from "miner" is accepted and lands at the end of the pending
queue with the block sequence unchanged. -/
theorem C5_addTransaction_spec_witness :
    exceptIsError (Blockchain.addTransaction testCrypto (Blockchain.new testCrypto)
      { Transaction.new (some "Pk1") (some "b") 0 7 with
        signature := some (testCrypto.sign "k1"
          (Transaction.calculateHash testCrypto (Transaction.new (some "Pk1") (some "b") 0 7))) })
      = true
    ∧ ∀ bc2, Blockchain.addTransaction testCrypto minedOnceBc
        { Transaction.new (some "miner") (some "b") 40 7 with
          signature := some (testCrypto.sign "iner"
            (Transaction.calculateHash testCrypto
              (Transaction.new (some "miner") (some "b") 40 7))) } = .ok bc2 →
        bc2.chain = minedOnceBc.chain
        ∧ bc2.pendingTransactions = minedOnceBc.pendingTransactions ++
            [{ Transaction.new (some "miner") (some "b") 40 7 with
               signature := some (testCrypto.sign "iner"
                 (Transaction.calculateHash testCrypto
                   (Transaction.new (some "miner") (some "b") 40 7))) }]
        ∧ bc2.difficulty = minedOnceBc.difficulty
        ∧ bc2.miningReward = minedOnceBc.miningReward := by
  constructor
  · exact (C5_addTransaction_spec testCrypto (Blockchain.new testCrypto) _).2.2.1 (by decide)
  · exact (C5_addTransaction_spec testCrypto minedOnceBc _).2.2.2.2

/-- The tampering of the tamper-detection property: overwrite the amount of
the first transaction of `chain[1]`, leaving every stored hash and nonce
(and everything else) unchanged. -/
def tamperAmount (bc : Blockchain) (a : Int) : Blockchain :=
  { bc with
    chain :=
      match bc.chain with
      | g :: b1 :: rest =>
        g :: { b1 with
               transactions :=
                 match b1.transactions with
                 | [] => []
                 | t :: ts => { t with amount := a } :: ts } :: rest
      | l => l }

/-- C1 (code bug): on the 2-block chain actually produced by
`minePendingTransactions`, mutating a historical transaction amount from 100
to 10 with hashes and nonces untouched does not make `isChainValid()` return
`false`: the call throws (the loop invokes the nonexistent method
`hasValidTransactions`; the defined one is `hasValidTransaction`), and even
with that typo repaired the check still answers `true`, because the block
digest never covers the transactions and a reward transaction needs no
signature. -/
theorem C1_tamper_detection_fails :
    Blockchain.minePendingTransactions testCrypto (Blockchain.new testCrypto)
        "miner" 50 60 5 = some minedOnceBc
    ∧ Blockchain.isChainValidNameFixed testCrypto minedOnceBc = .ok true
    ∧ (tamperAmount minedOnceBc 10).chain.map Block.hash =
        minedOnceBc.chain.map Block.hash
    ∧ (tamperAmount minedOnceBc 10).chain.map Block.nonce =
        minedOnceBc.chain.map Block.nonce
    ∧ (tamperAmount minedOnceBc 10).chain.map Block.transactions ≠
        minedOnceBc.chain.map Block.transactions
    ∧ Blockchain.isChainValid testCrypto (tamperAmount minedOnceBc 10) =
        .error "currentBlock.hasValidTransactions is not a function"
    ∧ Blockchain.isChainValidNameFixed testCrypto (tamperAmount minedOnceBc 10) =
        .ok true := by
  refine ⟨rfl, rfl, rfl, rfl, ?_, rfl, rfl⟩
  decide

/-- C2 (code bug): the block digest input is
`"undefined" ++ previousHash ++ timestamp ++ "undefined" ++ nonce` — the
serialized transaction batch never enters it (the source digests the
nonexistent fields `this.index` and `this.data`), so two blocks that differ
exactly in their transaction batch get the same digest input and the same
hash under every digest function. -/
theorem C2_digest_ignores_batch :
    (∀ C : Crypto,
      Block.calculateHash C
          { previousHash := "p", timestamp := 5, transactions := [],
            hash := "h", nonce := 3 } =
        Block.calculateHash C
          { previousHash := "p", timestamp := 5,
            transactions := [Transaction.new (some "a") (some "b") 7 1],
            hash := "h", nonce := 3 })
    ∧ blockHashInput "p" 5 "3" = "undefinedp5undefined3" := by
  exact ⟨fun C => rfl, rfl⟩

/-- A 2-block chain whose second block has `previousHash` equal to "BROKEN",
unrelated to the genesis hash, but whose transactions are valid and whose
stored hash matches a recomputed hash. -/
def brokenLinkBc : Blockchain :=
  { chain :=
      [createGenesisBlock testCrypto,
       { previousHash := "BROKEN", timestamp := 60,
         transactions := [Transaction.new none (some "miner") 100 50],
         hash := "00", nonce := 0 }],
    difficulty := 2, pendingTransactions := [], miningReward := 100 }

/-- C3 (code bug): on a chain whose second block's `previousHash` differs
from the first block's stored hash, `isChainValid()` does not return
`false`: it throws (nonexistent method `hasValidTransactions`), and even
with that typo repaired it returns `true` — the source loop contains no
comparison of `previousHash` against the prior block's hash, although its
own comment promises to "verify if they are properly linked together". -/
theorem C3_linkage_not_checked :
    ∃ g b1, brokenLinkBc.chain = [g, b1]
    ∧ b1.previousHash ≠ g.hash
    ∧ Block.hasValidTransaction testCrypto b1 = .ok true
    ∧ b1.hash = Block.calculateHash testCrypto b1
    ∧ Blockchain.isChainValid testCrypto brokenLinkBc =
        .error "currentBlock.hasValidTransactions is not a function"
    ∧ Blockchain.isChainValidNameFixed testCrypto brokenLinkBc = .ok true := by
  refine ⟨_, _, rfl, ?_, rfl, rfl, rfl, rfl⟩
  decide

end Pinkycoin
